import Mathlib

/-!
Shallow embedding of the vault-service gateway (VaultManager, the express
routes, SecretManager) and the resilient client (VaultClient.js).
Secret documents are modelled as partial maps from field names to string
values; JS object spread-update becomes pointwise function update; the
backing store is a partial map from paths to documents; fallible network
calls are parameters of type Except or Bool-valued oracles indexed by
attempt number.  Random generation (crypto.randomBytes and friends) is
modelled by passing the freshly generated material as an explicit argument.
-/

/-- A secret document: a partial map from field name to string value,
mirroring a JSON object with string fields. -/
def Doc : Type := String → Option String

/-- Build a document from an association list (used for concrete documents). -/
def docOfList (l : List (String × String)) : Doc :=
  fun k => (l.find? (fun kv => kv.1 == k)).map Prod.snd

/-- JS `a || b` on an optional string: null/undefined and the empty string
are falsy and select the default. -/
def jsOr (o : Option String) (d : String) : String :=
  match o with
  | some s => if s = "" then d else s
  | none => d

/-- JS template interpolation of a possibly-undefined field. -/
def jsUndef (o : Option String) : String :=
  o.getD "undefined"

/-- Whether an Except value is a success. -/
def exIsOk {ε α : Type} : Except ε α → Bool
  | .ok _ => true
  | .error _ => false

/-!  ## Rotation protocol (VaultManager.rotateJWTSecret)

`rotateJWTSecret` reads the current jwt document, generates a fresh 64-byte
hex key, and writes `{...currentJwt, secret: newSecret, rotated_at: now,
previous_secret: currentJwt.secret}`.  The fresh key and the timestamp are
passed explicitly. -/

/-- One rotation step on the jwt document: spread of the old document
overridden by the three explicit fields written by the source. -/
def rotateJWTSecret (d : Doc) (newSecret rotatedAt : String) : Doc :=
  fun k =>
    if k = "secret" then some newSecret
    else if k = "rotated_at" then some rotatedAt
    else if k = "previous_secret" then d "secret"
    else d k

/-- A sequence of rotations, each with its own fresh key and timestamp. -/
def rotateSeq (d : Doc) (steps : List (String × String)) : Doc :=
  steps.foldl (fun acc st => rotateJWTSecret acc st.1 st.2) d

theorem rotateSeq_append (d : Doc) (l₁ l₂ : List (String × String)) :
    rotateSeq d (l₁ ++ l₂) = rotateSeq (rotateSeq d l₁) l₂ := by
  simp [rotateSeq, List.foldl_append]

theorem rotateJWTSecret_other (d : Doc) (ns ts : String) (k : String)
    (h1 : k ≠ "secret") (h2 : k ≠ "rotated_at") (h3 : k ≠ "previous_secret") :
    rotateJWTSecret d ns ts k = d k := by
  simp [rotateJWTSecret, h1, h2, h3]

theorem rotateSeq_other (d : Doc) (steps : List (String × String)) (k : String)
    (h1 : k ≠ "secret") (h2 : k ≠ "rotated_at") (h3 : k ≠ "previous_secret") :
    rotateSeq d steps k = d k := by
  induction steps generalizing d with
  | nil => rfl
  | cons s t ih =>
      show rotateSeq (rotateJWTSecret d s.1 s.2) t k = d k
      rw [ih (rotateJWTSecret d s.1 s.2), rotateJWTSecret_other d s.1 s.2 k h1 h2 h3]

/-- C1: rotating the jwt document replaces `secret` with the fresh key,
adds `rotated_at`, sets `previous_secret` to the old secret, and leaves
every other field unchanged; the new secret differs from the old one
whenever the fresh material does. -/
theorem rotateJWTSecret_contract (d : Doc) (s fresh ts : String)
    (hs : d "secret" = some s) (hfresh : fresh ≠ s) :
    rotateJWTSecret d fresh ts "secret" = some fresh
    ∧ rotateJWTSecret d fresh ts "secret" ≠ d "secret"
    ∧ rotateJWTSecret d fresh ts "previous_secret" = some s
    ∧ rotateJWTSecret d fresh ts "rotated_at" = some ts
    ∧ ∀ k, k ≠ "secret" → k ≠ "rotated_at" → k ≠ "previous_secret" →
        rotateJWTSecret d fresh ts k = d k := by
  refine ⟨rfl, ?_, ?_, rfl, fun k h1 h2 h3 => rotateJWTSecret_other d fresh ts k h1 h2 h3⟩
  · show some fresh ≠ d "secret"
    rw [hs]
    intro h
    exact hfresh (Option.some.inj h)
  · show d "secret" = some s
    exact hs

/-- Scenario from the spec: write `{secret:"s1", algorithm:"HS256"}`, rotate
with fresh key "s2"; the stored document has secret "s2" ≠ "s1",
previous_secret "s1", and algorithm still "HS256". -/
theorem rotateJWTSecret_contract_witness :
    rotateJWTSecret (docOfList [("secret", "s1"), ("algorithm", "HS256")]) "s2" "t1" "secret"
        = some "s2"
    ∧ rotateJWTSecret (docOfList [("secret", "s1"), ("algorithm", "HS256")]) "s2" "t1" "secret"
        ≠ docOfList [("secret", "s1"), ("algorithm", "HS256")] "secret"
    ∧ rotateJWTSecret (docOfList [("secret", "s1"), ("algorithm", "HS256")]) "s2" "t1"
        "previous_secret" = some "s1"
    ∧ rotateJWTSecret (docOfList [("secret", "s1"), ("algorithm", "HS256")]) "s2" "t1"
        "algorithm" = some "HS256" := by
  have h := rotateJWTSecret_contract (docOfList [("secret", "s1"), ("algorithm", "HS256")])
    "s1" "s2" "t1" rfl (by decide)
  exact ⟨h.1, h.2.1, h.2.2.1, (h.2.2.2.2 "algorithm" (by decide) (by decide) (by decide)).trans rfl⟩

/-- C3: after any sequence of at least two rotations, the document holds
exactly the last fresh key as `secret`, exactly the immediately preceding
fresh key as `previous_secret` (older values are discarded), the last
timestamp as `rotated_at`, and every other field still has its original
value. -/
theorem rotateSeq_single_previous (d : Doc) (pre : List (String × String))
    (k₁ t₁ k₂ t₂ : String) :
    rotateSeq d (pre ++ [(k₁, t₁), (k₂, t₂)]) "secret" = some k₂
    ∧ rotateSeq d (pre ++ [(k₁, t₁), (k₂, t₂)]) "previous_secret" = some k₁
    ∧ rotateSeq d (pre ++ [(k₁, t₁), (k₂, t₂)]) "rotated_at" = some t₂
    ∧ ∀ k, k ≠ "secret" → k ≠ "rotated_at" → k ≠ "previous_secret" →
        rotateSeq d (pre ++ [(k₁, t₁), (k₂, t₂)]) k = d k := by
  rw [rotateSeq_append]
  refine ⟨rfl, rfl, rfl, fun k h1 h2 h3 => ?_⟩
  have h4 : rotateSeq (rotateSeq d pre) [(k₁, t₁), (k₂, t₂)] k = rotateSeq d pre k :=
    rotateSeq_other (rotateSeq d pre) [(k₁, t₁), (k₂, t₂)] k h1 h2 h3
  rw [h4, rotateSeq_other d pre k h1 h2 h3]

/-- Rotating twice from `{secret:"s1", algorithm:"HS256"}` with fresh keys
"s2" then "s3" retains only "s2" as the previous value (not "s1"), and the
algorithm field survives both rotations. -/
theorem rotateSeq_single_previous_witness :
    rotateSeq (docOfList [("secret", "s1"), ("algorithm", "HS256")])
        [("s2", "t2"), ("s3", "t3")] "secret" = some "s3"
    ∧ rotateSeq (docOfList [("secret", "s1"), ("algorithm", "HS256")])
        [("s2", "t2"), ("s3", "t3")] "previous_secret" = some "s2"
    ∧ rotateSeq (docOfList [("secret", "s1"), ("algorithm", "HS256")])
        [("s2", "t2"), ("s3", "t3")] "algorithm" = some "HS256" := by
  have h := rotateSeq_single_previous (docOfList [("secret", "s1"), ("algorithm", "HS256")])
    [] "s2" "t2" "s3" "t3"
  exact ⟨h.1, h.2.1,
    (h.2.2.2 "algorithm" (by decide) (by decide) (by decide)).trans rfl⟩

/-!  ## Bootstrap / seeding (VaultManager.initialize, setupPolicies,
storeInitialSecrets, waitForVault)

The backing store is a partial map from paths to documents.  Reads fail
exactly when no document is present at the path, mirroring a reachable
store.  Policy documents are keyed by name; a policy is an ordered list of
(path pattern, capability list) rules, and addPolicy replaces the rules
stored under the name. -/

/-- The backing secret store: path to document. -/
def Store : Type := String → Option Doc

/-- Policy rules: ordered (path pattern, capability list) entries. -/
def PolicyRules : Type := List (String × List String)

/-- The policy side of the backing store: name to rules. -/
def PolicyStore : Type := String → Option PolicyRules

/-- vault.addPolicy: store the rules under the name (replace-on-write). -/
def addPolicy (ps : PolicyStore) (name : String) (rules : PolicyRules) : PolicyStore :=
  fun q => if q = name then some rules else ps q

/-- The fixed policy table from setupPolicies. -/
def policyList : List (String × PolicyRules) :=
  [("transcendence-admin",
    [("secret/data/transcendence/*", ["create", "read", "update", "delete", "list"]),
     ("secret/metadata/transcendence/*", ["list", "delete"]),
     ("auth/token/*", ["create", "read", "update", "delete", "list"])]),
   ("transcendence-service",
    [("secret/data/transcendence/database", ["read"]),
     ("secret/data/transcendence/jwt", ["read"]),
     ("secret/data/transcendence/encryption", ["read"]),
     ("secret/data/transcendence/oauth", ["read"]),
     ("secret/data/transcendence/api", ["read"]),
     ("auth/token/lookup-self", ["read"])]),
   ("transcendence-auth",
    [("secret/data/transcendence/database", ["read"]),
     ("secret/data/transcendence/jwt", ["read", "update"]),
     ("secret/data/transcendence/oauth", ["read"])]),
   ("transcendence-db",
    [("secret/data/transcendence/database", ["read"])])]

/-- setupPolicies with a per-policy failure oracle: each addPolicy call sits
in its own try/catch, so a failing call is logged and skipped. -/
def setupPoliciesF (polFail : String → Bool) (ps : PolicyStore) : PolicyStore :=
  policyList.foldl (fun acc nr => if polFail nr.1 then acc else addPolicy acc nr.1 nr.2) ps

/-- setupPolicies against a store whose policy writes all succeed. -/
def setupPolicies0 (ps : PolicyStore) : PolicyStore :=
  setupPoliciesF (fun _ => false) ps

/-- The random material, timestamps and environment that one run of
storeInitialSecrets consumes; a second run draws a different GenState. -/
structure GenState where
  password24 : String
  rootPassword32 : String
  jwtSecret64 : String
  encryptionKey32 : String
  googleClientSecret32 : String
  sessionSecret32 : String
  nowIso : String
  env : String → Option String

/-- The fixed secret table from storeInitialSecrets, with generated and
environment-sourced material supplied by the GenState. -/
def initialSecretDocs (g : GenState) : List (String × Doc) :=
  [("secret/data/transcendence/database", docOfList
     [("host", "database-service"),
      ("port", "3306"),
      ("username", "user"),
      ("password", g.password24),
      ("root_password", g.rootPassword32),
      ("main_database", "transcendence"),
      ("shared_database", "transcendence"),
      ("url_template", "mysql://{username}:{password}@{host}:{port}/{database}")]),
   ("secret/data/transcendence/jwt", docOfList
     [("secret", g.jwtSecret64),
      ("algorithm", "HS256"),
      ("expiration", "24h"),
      ("refresh_expiration", "7d"),
      ("issuer", "transcendence"),
      ("audience", "transcendence-users"),
      ("created_at", g.nowIso)]),
   ("secret/data/transcendence/encryption", docOfList
     [("key", g.encryptionKey32),
      ("algorithm", "aes-256-gcm"),
      ("iv_length", "16"),
      ("created_at", g.nowIso)]),
   ("secret/data/transcendence/oauth", docOfList
     [("google_client_id", jsOr (g.env "GOOGLE_CLIENT_ID") "your-google-client-id"),
      ("google_client_secret", jsOr (g.env "GOOGLE_CLIENT_SECRET") g.googleClientSecret32),
      ("github_client_id", jsOr (g.env "GITHUB_CLIENT_ID") "Ov23liYOrKaDhnkpgwvT"),
      ("github_client_secret", jsOr (g.env "GITHUB_CLIENT_SECRET")
        "e2761b04180f7b5b2f1199e9dc97d699e8074588"),
      ("github_redirect_uri", jsOr (g.env "GITHUB_REDIRECT_URI")
        "https://localhost/oauth/github/callback"),
      ("intra_client_id", jsOr (g.env "INTRA_CLIENT_ID")
        "u-s4t2ud-2e713f8650a64fa14b4653d833834963aaa8d2191f94adf2ed6090215b3b846b"),
      ("intra_client_secret", jsOr (g.env "INTRA_CLIENT_SECRET")
        "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"),
      ("intra_redirect_uri", jsOr (g.env "INTRA_REDIRECT_URI")
        "https://localhost/oauth/42/callback"),
      ("callback_url_base", jsOr (g.env "CALLBACK_URL_BASE")
        "https://localhost/auth/callback"),
      ("created_at", g.nowIso)]),
   ("secret/data/transcendence/api", docOfList
     [("rate_limit_max", jsOr (g.env "RATE_LIMIT_MAX") "100"),
      ("rate_limit_window", jsOr (g.env "RATE_LIMIT_WINDOW") "60000"),
      ("cors_origin", jsOr (g.env "CORS_ORIGIN") "http://localhost:3000,https://localhost"),
      ("session_secret", g.sessionSecret32),
      ("api_version", "1.0.0"),
      ("created_at", g.nowIso)]),
   ("secret/data/transcendence/services", docOfList
     [("auth_service_url", "http://auth-service:3000"),
      ("user_service_url", "http://user-service:3001"),
      ("game_service_url", "http://game-service:3002"),
      ("gateway_service_url", "http://gateway-service:3003"),
      ("vault_service_url", "http://vault-service:8300"),
      ("auth_service_port", "3000"),
      ("user_service_port", "3001"),
      ("game_service_port", "3002"),
      ("gateway_service_port", "3003"),
      ("vault_service_port", "8300")]),
   ("secret/data/transcendence/game", docOfList
     [("ws_heartbeat_interval", "30000"),
      ("ws_connection_timeout", "60000"),
      ("game_tick_rate", "60"),
      ("match_timeout", "600000"),
      ("matchmaking_timeout", "30000"),
      ("max_players_per_game", "4"),
      ("force_https", "true"),
      ("hsts_max_age", "31536000"),
      ("security_headers", "true")])]

/-- One seeding step: read the path first and write the document only when
the read finds nothing; a failing write (outer catch) is logged and
skipped. -/
def seedOneF (writeFail : String → Bool) (s : Store) (p : String) (v : Doc) : Store :=
  match s p with
  | some _ => s
  | none => if writeFail p then s else fun q => if q = p then some v else s q

/-- Sequential seeding of a document list. -/
def seedListF (writeFail : String → Bool) (s : Store) (l : List (String × Doc)) : Store :=
  l.foldl (fun st pv => seedOneF writeFail st pv.1 pv.2) s

/-- storeInitialSecrets with all writes succeeding. -/
def seedSecrets (s : Store) (g : GenState) : Store :=
  seedListF (fun _ => false) s (initialSecretDocs g)

theorem seedOneF_preserve (writeFail : String → Bool) (s : Store) (p q : String)
    (v w : Doc) (h : s p = some v) : seedOneF writeFail s q w p = some v := by
  unfold seedOneF
  cases hq : s q with
  | some u => exact h
  | none =>
      by_cases hf : writeFail q
      · simp [hf, h]
      · simp only [hf, if_false]
        by_cases hpq : p = q
        · rw [hpq] at h; rw [h] at hq; exact absurd hq (by simp)
        · simp [hpq, h]

theorem seedListF_preserve (writeFail : String → Bool) (s : Store)
    (l : List (String × Doc)) (p : String) (v : Doc) (h : s p = some v) :
    seedListF writeFail s l p = some v := by
  induction l generalizing s with
  | nil => exact h
  | cons hd t ih =>
      show seedListF writeFail (seedOneF writeFail s hd.1 hd.2) t p = some v
      exact ih _ (seedOneF_preserve writeFail s p hd.1 v hd.2 h)

theorem seedOneF_isSome (writeFail : String → Bool) (s : Store) (p q : String)
    (w : Doc) (h : (s p).isSome) : (seedOneF writeFail s q w p).isSome := by
  obtain ⟨u, hu⟩ := Option.isSome_iff_exists.mp h
  rw [seedOneF_preserve writeFail s p q u w hu]
  rfl

theorem seedListF_isSome (writeFail : String → Bool) (s : Store)
    (l : List (String × Doc)) (p : String) (h : (s p).isSome) :
    (seedListF writeFail s l p).isSome := by
  induction l generalizing s with
  | nil => exact h
  | cons hd t ih =>
      exact ih (seedOneF writeFail s hd.1 hd.2) (seedOneF_isSome writeFail s p hd.1 hd.2 h)

theorem seedOneF_noop (writeFail : String → Bool) (s : Store) (p : String)
    (v : Doc) (h : (s p).isSome) : seedOneF writeFail s p v = s := by
  obtain ⟨u, hu⟩ := Option.isSome_iff_exists.mp h
  unfold seedOneF
  rw [hu]

/-- Seeding writes a path only when the read at that path fails: every path
appearing in the list is populated afterwards (with writes succeeding). -/
theorem seedListF_covers (s : Store) (l : List (String × Doc)) (p : String)
    (hp : p ∈ l.map Prod.fst) :
    (seedListF (fun _ => false) s l p).isSome := by
  induction l generalizing s with
  | nil => simp at hp
  | cons hd t ih =>
      rw [List.map_cons, List.mem_cons] at hp
      show (seedListF (fun _ => false) (seedOneF (fun _ => false) s hd.1 hd.2) t p).isSome
      rcases hp with hp | hp
      · rw [hp]
        apply seedListF_isSome
        unfold seedOneF
        cases hs : s hd.1 with
        | some u => simp [hs]
        | none => simp
      · exact ih _ hp

/-- Seeding a store that already holds a document at every listed path
changes nothing. -/
theorem seedListF_noop (writeFail : String → Bool) (s : Store)
    (l : List (String × Doc)) (hall : ∀ p ∈ l.map Prod.fst, (s p).isSome) :
    seedListF writeFail s l = s := by
  induction l generalizing s with
  | nil => rfl
  | cons hd t ih =>
      show seedListF writeFail (seedOneF writeFail s hd.1 hd.2) t = s
      have hhd : (s hd.1).isSome := hall hd.1 (by simp)
      rw [seedOneF_noop writeFail s hd.1 hd.2 hhd]
      exact ih s (fun p hp => hall p (by simp [hp]))

/-- The seeded paths do not depend on the drawn random material. -/
theorem initialSecretDocs_paths (g g' : GenState) :
    (initialSecretDocs g).map Prod.fst = (initialSecretDocs g').map Prod.fst := rfl

/-- C2: bootstrap seeding is idempotent.  Re-running secret seeding with
fresh random material changes no stored path (so generated credentials are
written at most once across restarts), re-running policy seeding leaves the
policy map unchanged (no duplicate policies), and seeding never overwrites
a document already present in the store. -/
theorem bootstrap_idempotent (s : Store) (g₁ g₂ : GenState) (ps : PolicyStore)
    (p n : String) (v : Doc) :
    seedSecrets (seedSecrets s g₁) g₂ p = seedSecrets s g₁ p
    ∧ setupPolicies0 (setupPolicies0 ps) n = setupPolicies0 ps n
    ∧ (s p = some v → seedSecrets s g₁ p = some v) := by
  refine ⟨?_, ?_, fun h => seedListF_preserve _ s _ p v h⟩
  · have hall : ∀ q ∈ (initialSecretDocs g₂).map Prod.fst,
        ((seedSecrets s g₁) q).isSome := by
      intro q hq
      rw [initialSecretDocs_paths g₂ g₁] at hq
      exact seedListF_covers s (initialSecretDocs g₁) q hq
    show seedListF (fun _ => false) (seedSecrets s g₁) (initialSecretDocs g₂) p
        = seedSecrets s g₁ p
    rw [seedListF_noop (fun _ => false) (seedSecrets s g₁) (initialSecretDocs g₂) hall]
  · simp only [setupPolicies0, setupPoliciesF, policyList, List.foldl, addPolicy,
      Bool.false_eq_true, if_false]
    split_ifs <;> rfl

/-- A sample GenState standing for one draw of random material. -/
def gEx : GenState :=
  ⟨"pw24", "rootpw32", "jwtsecret64", "enckey32", "gsecret32", "sess32", "2026-01-01T00:00:00Z",
   fun _ => none⟩

/-- A second draw of random material, distinct from the first. -/
def gEx2 : GenState :=
  ⟨"PW24b", "rootpw32b", "jwtsecret64b", "enckey32b", "gsecret32b", "sess32b",
   "2026-01-02T00:00:00Z", fun _ => none⟩

theorem bootstrap_idempotent_witness :
    seedSecrets (fun p => if p = "secret/data/transcendence/jwt"
        then some (docOfList [("secret", "s1")]) else none) gEx
      "secret/data/transcendence/jwt" = some (docOfList [("secret", "s1")])
    ∧ seedSecrets (seedSecrets (fun _ => none) gEx) gEx2 "secret/data/transcendence/jwt"
        = seedSecrets (fun _ => none) gEx "secret/data/transcendence/jwt" := by
  refine ⟨?_, ?_⟩
  · exact (bootstrap_idempotent
      (fun p => if p = "secret/data/transcendence/jwt"
        then some (docOfList [("secret", "s1")]) else none)
      gEx gEx (fun _ => none) "secret/data/transcendence/jwt" "n"
      (docOfList [("secret", "s1")])).2.2 (by simp)
  · exact (bootstrap_idempotent (fun _ => none) gEx gEx2 (fun _ => none)
      "secret/data/transcendence/jwt" "n" (docOfList [])).1

/-!  ## waitForVault and the top-level initialization (VaultManager)

`waitForVault(maxRetries = 30)` probes vault.health() up to maxRetries
times; every failed probe is followed by a fixed 2000 ms sleep (also after
the last one), and exhausting the bound throws.  The health outcome of
probe number i (0-based) is given by an oracle. -/

/-- The waitForVault loop: index of the current probe and remaining probes;
returns the outcome together with the list of sleeps performed. -/
def waitMgrGo (healthOk : Nat → Bool) : Nat → Nat → Except String Unit × List Nat
  | _, 0 => (.error "Vault is not available after maximum retries", [])
  | i, n + 1 =>
      if healthOk i then (.ok (), [])
      else
        let r := waitMgrGo healthOk (i + 1) n
        (r.1, 2000 :: r.2)

/-- waitForVault with its default bound of 30 probes. -/
def waitForVaultMgr (healthOk : Nat → Bool) (maxRetries : Nat := 30) :
    Except String Unit × List Nat :=
  waitMgrGo healthOk 0 maxRetries

theorem waitMgrGo_error_iff (healthOk : Nat → Bool) (i n : Nat) :
    exIsOk (waitMgrGo healthOk i n).1 = false ↔ ∀ j, i ≤ j → j < i + n → healthOk j = false := by
  induction n generalizing i with
  | zero =>
      simp only [waitMgrGo, exIsOk]
      constructor
      · intro _ j h1 h2
        omega
      · intro _
        trivial
  | succ n ih =>
      simp only [waitMgrGo]
      by_cases h : healthOk i
      · simp only [h, if_true, exIsOk]
        constructor
        · intro hfalse
          exact absurd hfalse (by simp)
        · intro hall
          have := hall i (le_refl i) (by omega)
          rw [h] at this
          exact absurd this (by simp)
      · simp only [h, Bool.false_eq_true, if_false]
        rw [ih (i + 1)]
        constructor
        · intro hall j h1 h2
          rcases Nat.eq_or_lt_of_le h1 with he | hl
          · rw [← he]
            exact Bool.eq_false_iff.mpr h
          · exact hall j hl (by omega)
        · intro hall j h1 h2
          exact hall j (by omega) (by omega)

theorem waitMgrGo_sleeps (healthOk : Nat → Bool) (i n : Nat) :
    (∀ d ∈ (waitMgrGo healthOk i n).2, d = 2000)
    ∧ (waitMgrGo healthOk i n).2.length ≤ n := by
  induction n generalizing i with
  | zero => exact ⟨by intro d hd; simp [waitMgrGo] at hd, by simp [waitMgrGo]⟩
  | succ n ih =>
      simp only [waitMgrGo]
      by_cases h : healthOk i
      · simp [h]
      · simp only [h, if_false]
        refine ⟨?_, ?_⟩
        · intro d hd
          rcases List.mem_cons.mp hd with hd | hd
          · exact hd
          · exact (ih (i + 1)).1 d hd
        · simpa using (ih (i + 1)).2

/-- The express route and VaultManager operations that initialization runs
after the backend becomes reachable; policy and secret seeding absorb their
own failures (per-item try/catch), so `initialize` can only throw out of
waitForVault. -/
def initRun (healthOk : Nat → Bool) (g : GenState) (polFail : String → Bool)
    (writeFail : String → Bool) (ps : PolicyStore) (s : Store) :
    Except String (PolicyStore × Store) × List Nat :=
  let w := waitForVaultMgr healthOk 30
  match w.1 with
  | .error e => (.error e, w.2)
  | .ok _ => (.ok (setupPoliciesF polFail ps, seedListF writeFail s (initialSecretDocs g)), w.2)

/-- C8: initialization fails exactly when all 30 health probes fail — for
every pattern of per-policy and per-secret seeding failures — and each
inter-probe wait is the fixed 2000 ms interval, at most 30 of them. -/
theorem initRun_fatal_iff (healthOk : Nat → Bool) (g : GenState)
    (polFail writeFail : String → Bool) (ps : PolicyStore) (s : Store) :
    (exIsOk (initRun healthOk g polFail writeFail ps s).1 = false
      ↔ ∀ i, i < 30 → healthOk i = false)
    ∧ (∀ d ∈ (initRun healthOk g polFail writeFail ps s).2, d = 2000)
    ∧ (initRun healthOk g polFail writeFail ps s).2.length ≤ 30 := by
  have herr := waitMgrGo_error_iff healthOk 0 30
  have hsl := waitMgrGo_sleeps healthOk 0 30
  simp only [initRun, waitForVaultMgr]
  constructor
  · cases hw : (waitMgrGo healthOk 0 30).1 with
    | error e =>
        simp only [hw, exIsOk]
        rw [hw] at herr
        simp only [exIsOk] at herr
        constructor
        · intro _ i hi
          exact (herr.mp trivial) i (Nat.zero_le i) (by omega)
        · intro _
          trivial
    | ok u =>
        simp only [hw, exIsOk]
        rw [hw] at herr
        simp only [exIsOk] at herr
        constructor
        · intro hfalse
          exact absurd hfalse (by simp)
        · intro hall
          exact absurd (herr.mpr (fun j _ hj => hall j (by omega))) (by simp)
  · cases hw : (waitMgrGo healthOk 0 30).1 with
    | error e => exact ⟨hsl.1, hsl.2⟩
    | ok u => exact ⟨hsl.1, hsl.2⟩

theorem initRun_fatal_iff_witness :
    exIsOk (initRun (fun _ => false) gEx (fun _ => false) (fun _ => false)
      (fun _ => none) (fun _ => none)).1 = false
    ∧ exIsOk (initRun (fun i => i = 3) gEx (fun n => n = "transcendence-admin")
      (fun p => p = "secret/data/transcendence/jwt") (fun _ => none) (fun _ => none)).1
      = true := by
  constructor
  · exact (initRun_fatal_iff (fun _ => false) gEx (fun _ => false) (fun _ => false)
      (fun _ => none) (fun _ => none)).1.mpr (fun i _ => rfl)
  · have h := (initRun_fatal_iff (fun i => i = 3) gEx (fun n => n = "transcendence-admin")
      (fun p => p = "secret/data/transcendence/jwt") (fun _ => none) (fun _ => none)).1
    by_cases hok : exIsOk (initRun (fun i => i = 3) gEx (fun n => n = "transcendence-admin")
      (fun p => p = "secret/data/transcendence/jwt") (fun _ => none) (fun _ => none)).1 = true
    · exact hok
    · have hall := h.mp (Bool.eq_false_iff.mpr (fun hc => hok hc))
      have h3 := hall 3 (by omega)
      simp at h3

/-!  ## Health endpoint (GET /health, VaultManager.getHealthStatus)

getHealthStatus wraps the backend health call in a try/catch of its own and
returns a plain status object in both branches — it never throws.  The
route therefore always lands in its success branch; the 500 catch branch of
the route exists in the source but is unreachable. -/

/-- The fields the backend health primitive reports on success. -/
structure BackendHealth where
  initialized : Bool
  sealedFlag : Bool
  standby : Bool
  version : String

/-- The object getHealthStatus returns (both branches). -/
structure VaultHealthView where
  vault_status : String
  initialized : Option Bool
  sealedFlag : Option Bool
  standby : Option Bool
  version : Option String
  error : Option String
deriving DecidableEq

/-- VaultManager.getHealthStatus: total — the catch branch converts an
unreachable backend into a status value instead of an exception. -/
def getHealthStatus (backend : Except String BackendHealth) : VaultHealthView :=
  match backend with
  | .ok h => ⟨"healthy", some h.initialized, some h.sealedFlag, some h.standby,
      some h.version, none⟩
  | .error e => ⟨"unhealthy", none, none, none, none, some e⟩

/-- The JSON body and HTTP status the /health route produces. -/
structure HealthResponse where
  httpStatus : Nat
  status : String
  vault : Option VaultHealthView
  error : Option String
deriving DecidableEq

/-- The GET /health route.  Its try/catch is modelled by matching on the
result of the handler body; since getHealthStatus is total, that result is
always ok and the 500 branch is dead. -/
def healthRoute (backend : Except String BackendHealth) : HealthResponse :=
  match (Except.ok (getHealthStatus backend) : Except String VaultHealthView) with
  | .ok health => ⟨200, "healthy", some health, none⟩
  | .error e => ⟨500, "unhealthy", none, some e⟩

/-- C4 counterexample: with the backing store unreachable (health call
fails), GET /health still answers HTTP 200 with top-level status "healthy";
only the nested vault_status says "unhealthy" — not the claimed 500. -/
theorem healthRoute_unreachable_is_200 :
    healthRoute (.error "connect ECONNREFUSED vault:8200")
      = ⟨200, "healthy",
          some ⟨"unhealthy", none, none, none, none,
            some "connect ECONNREFUSED vault:8200"⟩, none⟩
    ∧ (healthRoute (.error "connect ECONNREFUSED vault:8200")).httpStatus ≠ 500
    ∧ (healthRoute (.error "connect ECONNREFUSED vault:8200")).status ≠ "unhealthy" := by
  refine ⟨rfl, ?_, ?_⟩ <;> decide

/-- C4 amended: GET /health always responds 200 with top-level status
"healthy"; an unreachable backend is reported only inside the body, as
vault.vault_status = "unhealthy" with the error message — getHealthStatus
never throws, so the 500 branch of the route is unreachable. -/
theorem healthRoute_status (backend : Except String BackendHealth) :
    (healthRoute backend).httpStatus = 200
    ∧ (healthRoute backend).status = "healthy"
    ∧ (∀ e, healthRoute (.error e)
        = ⟨200, "healthy", some ⟨"unhealthy", none, none, none, none, some e⟩, none⟩)
    ∧ ∀ h, (getHealthStatus (.ok h)).vault_status = "healthy" := by
  exact ⟨rfl, rfl, fun e => rfl, fun h => rfl⟩

/-!  ## Service-token endpoint (POST /api/tokens/service,
VaultManager.createServiceToken)

The route guard is JS truthiness: `!serviceName || !policies`.  A missing
field or an empty string is falsy, but an array — even the empty array — is
truthy, so `policies: []` passes the guard. -/

/-- JS falsiness of an optional string. -/
def strFalsy : Option String → Bool
  | none => true
  | some s => s = ""

/-- The token-create request sent to the backing store. -/
structure TokenRequest where
  policies : List String
  ttl : String
  renewable : Bool
  service : String
deriving DecidableEq

/-- The JSON body and HTTP status of the token route. -/
structure TokenResponse where
  httpStatus : Nat
  success : Bool
  token : Option String
  error : Option String
deriving DecidableEq

/-- VaultManager.createServiceToken: issue the tokenCreate request with the
fixed 24h TTL, renewable flag and service metadata, returning the request
made together with the outcome. -/
def createServiceToken (serviceName : String) (policies : List String)
    (tokenCreate : TokenRequest → Except String String) :
    Except String String × TokenRequest :=
  let req : TokenRequest := ⟨policies, "24h", true, serviceName⟩
  (tokenCreate req, req)

/-- The POST /api/tokens/service route; the second component records the
request sent to the backing store, none when the store was never called. -/
def tokensServiceRoute (serviceName : Option String) (policies : Option (List String))
    (tokenCreate : TokenRequest → Except String String) :
    TokenResponse × Option TokenRequest :=
  if strFalsy serviceName || policies.isNone then
    (⟨400, false, none, some "serviceName and policies are required"⟩, none)
  else
    let r := createServiceToken (serviceName.getD "") (policies.getD []) tokenCreate
    match r.1 with
    | .ok tok => (⟨200, true, some tok, none⟩, some r.2)
    | .error e => (⟨500, false, none, some e⟩, some r.2)

/-- C5 counterexample: a request with a non-empty serviceName and an empty
policies list is not rejected — the empty array is truthy in JS, so the
guard passes and the backing store is called with an empty policy list. -/
theorem tokensServiceRoute_empty_policies_passes :
    tokensServiceRoute (some "auth-service") (some []) (fun _ => .ok "hvs.token")
      = (⟨200, true, some "hvs.token", none⟩, some ⟨[], "24h", true, "auth-service"⟩)
    ∧ (tokensServiceRoute (some "auth-service") (some [])
        (fun _ => .ok "hvs.token")).1.httpStatus ≠ 400
    ∧ (tokensServiceRoute (some "auth-service") (some [])
        (fun _ => .ok "hvs.token")).2 ≠ none := by
  refine ⟨rfl, ?_, ?_⟩ <;> decide

/-- C5 amended: the route answers 400 `{success:false}` without calling the
store exactly when serviceName is missing or empty or the policies field is
missing (so body `{}` gets 400); an empty policies list is forwarded.  In
the accepted case the store receives a request for a 24-hour renewable
token bound to exactly the named policies, and the response carries only
the opaque token string. -/
theorem tokensServiceRoute_contract (serviceName : Option String)
    (policies : Option (List String)) (sn tok : String) (ps : List String)
    (tokenCreate : TokenRequest → Except String String) :
    (strFalsy serviceName = true ∨ policies = none →
      tokensServiceRoute serviceName policies tokenCreate
        = (⟨400, false, none, some "serviceName and policies are required"⟩, none))
    ∧ tokensServiceRoute none none tokenCreate
        = (⟨400, false, none, some "serviceName and policies are required"⟩, none)
    ∧ (sn ≠ "" → tokenCreate ⟨ps, "24h", true, sn⟩ = .ok tok →
        tokensServiceRoute (some sn) (some ps) tokenCreate
          = (⟨200, true, some tok, none⟩, some ⟨ps, "24h", true, sn⟩)) := by
  refine ⟨?_, rfl, ?_⟩
  · intro h
    rcases h with h | h
    · simp [tokensServiceRoute, h]
    · simp [tokensServiceRoute, h]
  · intro hsn htc
    have hf : strFalsy (some sn) = false := by
      simp [strFalsy, hsn]
    simp only [tokensServiceRoute, hf, Option.isNone_some, Bool.or_self,
      Bool.false_eq_true, if_false, createServiceToken, Option.getD_some, htc]

theorem tokensServiceRoute_contract_witness :
    tokensServiceRoute none none (fun _ => .ok "t")
      = (⟨400, false, none, some "serviceName and policies are required"⟩, none)
    ∧ tokensServiceRoute (some "auth-service") (some ["transcendence-service"])
        (fun _ => .ok "hvs.abc")
      = (⟨200, true, some "hvs.abc", none⟩,
         some ⟨["transcendence-service"], "24h", true, "auth-service"⟩) := by
  refine ⟨(tokensServiceRoute_contract none none "x" "t" [] (fun _ => .ok "t")).2.1, ?_⟩
  exact (tokensServiceRoute_contract (some "auth-service") (some ["transcendence-service"])
    "auth-service" "hvs.abc" ["transcendence-service"] (fun _ => .ok "hvs.abc")).2.2
    (by decide) rfl

/-!  ## Client fetch with retry (VaultClient.getSecret)

The loop runs attempt = 1 .. retryCount; a failed attempt that is not the
last sleeps 1000 * attempt ms; exhausting the budget rethrows the last
error.  The outcome of attempt a is given by an oracle; the trace records
the result, the number of attempts made, the sleeps, and the console
messages (which are built from the path and the counters only). -/

/-- The log line for a successful attempt. -/
def okLog (path : String) (a : Nat) : String :=
  s!"✅ Secret retrieved from path: {path} (attempt {a})"

/-- The warning line for a failed attempt that will be retried. -/
def warnLog (a R : Nat) : String :=
  s!"⚠️ Secret retrieval failed (attempt {a}/{R}), retrying..."

/-- The final error line after the budget is exhausted. -/
def failLog (path : String) (R : Nat) : String :=
  s!"❌ Failed to retrieve secret from {path} after {R} attempts"

/-- The observable trace of one getSecret call.  The error side of the
result carries the last error, none when the loop never ran. -/
structure FetchTrace (α : Type) where
  result : Except (Option String) α
  attempts : Nat
  sleeps : List Nat
  logs : List String

/-- The retry loop, by remaining attempts; the current attempt number is
R minus the remaining count plus one. -/
def fetchGo {α : Type} (path : String) (R : Nat) (outcome : Nat → Except String α) :
    Nat → Option String → FetchTrace α
  | 0, le => ⟨.error le, R, [], [failLog path R]⟩
  | n + 1, _le =>
      let a := R - n
      match outcome a with
      | .ok v => ⟨.ok v, a, [], [okLog path a]⟩
      | .error err =>
          let rest := fetchGo path R outcome n (some err)
          if a < R then
            ⟨rest.result, rest.attempts, 1000 * a :: rest.sleeps, warnLog a R :: rest.logs⟩
          else rest

/-- VaultClient.getSecret with retry budget R (default 3). -/
def getSecretRun {α : Type} (path : String) (R : Nat)
    (outcome : Nat → Except String α) : FetchTrace α :=
  fetchGo path R outcome R none

/-- The default retryCount of the client configuration. -/
def defaultRetryCount : Nat := 3

theorem fetchGo_attempts_le {α : Type} (path : String) (R : Nat)
    (outcome : Nat → Except String α) (n : Nat) (le : Option String) :
    (fetchGo path R outcome n le).attempts ≤ R := by
  induction n generalizing le with
  | zero => exact le_refl R
  | succ n ih =>
      show (fetchGo path R outcome (n + 1) le).attempts ≤ R
      simp only [fetchGo]
      cases outcome (R - n) with
      | ok v => exact Nat.sub_le R n
      | error err =>
          by_cases h : R - n < R
          · simpa [h] using ih (some err)
          · simpa [h] using ih (some err)

theorem fetchGo_allfail {α : Type} (path : String) (R : Nat)
    (outcome : Nat → Except String α) (e : Nat → String)
    (hfail : ∀ a, 1 ≤ a → a ≤ R → outcome a = .error (e a)) (n : Nat) :
    1 ≤ n → n ≤ R → ∀ le, fetchGo path R outcome n le
      = ⟨.error (some (e R)), R,
          (List.range' (R - n + 1) (n - 1)).map (fun a => 1000 * a),
          (List.range' (R - n + 1) (n - 1)).map (fun a => warnLog a R)
            ++ [failLog path R]⟩ := by
  induction n with
  | zero => omega
  | succ n ih =>
      intro _ hle le
      have ha : outcome (R - n) = .error (e (R - n)) :=
        hfail (R - n) (by omega) (by omega)
      simp only [fetchGo, ha]
      by_cases hn : 1 ≤ n
      · have hrest := ih (by omega) (by omega) (some (e (R - n)))
        have hlt : R - n < R := by omega
        rw [if_pos hlt, hrest]
        have hrange : List.range' (R - (n + 1) + 1) (n + 1 - 1)
            = (R - n) :: List.range' (R - n + 1) (n - 1) := by
          have h1 : R - (n + 1) + 1 = R - n := by omega
          have h2 : n + 1 - 1 = (n - 1) + 1 := by omega
          rw [h1, h2, List.range'_succ (R - n) (n - 1) 1]
        rw [hrange]
        simp
      · have hn0 : n = 0 := by omega
        subst hn0
        have hnlt : ¬ R - 0 < R := by omega
        rw [if_neg hnlt]
        simp only [fetchGo]
        have hfin : R - 0 = R := by omega
        rw [hfin]
        simp [List.range']

theorem fetchGo_shape {α β : Type} (path : String) (R : Nat)
    (o₁ : Nat → Except String α) (o₂ : Nat → Except String β)
    (hsh : ∀ a, exIsOk (o₁ a) = exIsOk (o₂ a)) (n : Nat) (le₁ le₂ : Option String) :
    (fetchGo path R o₁ n le₁).logs = (fetchGo path R o₂ n le₂).logs
    ∧ (fetchGo path R o₁ n le₁).sleeps = (fetchGo path R o₂ n le₂).sleeps
    ∧ (fetchGo path R o₁ n le₁).attempts = (fetchGo path R o₂ n le₂).attempts := by
  induction n generalizing le₁ le₂ with
  | zero => exact ⟨rfl, rfl, rfl⟩
  | succ n ih =>
      simp only [fetchGo]
      have h := hsh (R - n)
      cases h1 : o₁ (R - n) with
      | ok v₁ =>
          cases h2 : o₂ (R - n) with
          | ok v₂ => exact ⟨rfl, rfl, rfl⟩
          | error e₂ =>
              rw [h1, h2] at h
              simp [exIsOk] at h
      | error e₁ =>
          cases h2 : o₂ (R - n) with
          | ok v₂ =>
              rw [h1, h2] at h
              simp [exIsOk] at h
          | error e₂ =>
              have ihh := ih (some e₁) (some e₂)
              by_cases hlt : R - n < R
              · simp only [hlt, if_true]
                exact ⟨by rw [ihh.1], by rw [ihh.2.1], by rw [ihh.2.2]⟩
              · simp only [hlt, if_false]
                exact ihh

/-- C6: a getSecret call with retry budget R makes at most R attempts; when
every attempt fails, the surfaced error is the error of the last attempt
and the waits between attempts are the linear backoff 1000 * 1, ...,
1000 * (R - 1) ms; and the console output and sleep pattern depend only on
the path and the success/failure shape of the attempts — never on the
fetched secret data or the error payloads. -/
theorem getSecret_retry_props (α β : Type) (path : String) (R : Nat)
    (outcome : Nat → Except String α) (outcome₂ : Nat → Except String β)
    (e : Nat → String) :
    (getSecretRun path R outcome).attempts ≤ R
    ∧ (1 ≤ R → (∀ a, 1 ≤ a → a ≤ R → outcome a = .error (e a)) →
        (getSecretRun path R outcome).result = .error (some (e R))
        ∧ (getSecretRun path R outcome).sleeps
            = (List.range' 1 (R - 1)).map (fun a => 1000 * a))
    ∧ ((∀ a, exIsOk (outcome a) = exIsOk (outcome₂ a)) →
        (getSecretRun path R outcome).logs = (getSecretRun path R outcome₂).logs
        ∧ (getSecretRun path R outcome).sleeps = (getSecretRun path R outcome₂).sleeps) := by
  refine ⟨fetchGo_attempts_le path R outcome R none, ?_, ?_⟩
  · intro hR hfail
    have h := fetchGo_allfail path R outcome e hfail R hR (le_refl R) none
    have hz : R - R + 1 = 1 := by omega
    rw [hz] at h
    unfold getSecretRun
    rw [h]
    exact ⟨rfl, rfl⟩
  · intro hsh
    have h := fetchGo_shape path R outcome outcome₂ hsh R none none
    exact ⟨h.1, h.2.1⟩

/-- With the default budget of 3 and all attempts failing, exactly the last
error surfaces and the waits are 1000 ms then 2000 ms. -/
theorem getSecret_retry_props_witness :
    (getSecretRun "jwt" defaultRetryCount
        (fun a => (.error (toString a) : Except String Doc))).result
      = .error (some "3")
    ∧ (getSecretRun "jwt" defaultRetryCount
        (fun a => (.error (toString a) : Except String Doc))).sleeps = [1000, 2000] := by
  have h := (getSecret_retry_props Doc Doc "jwt" defaultRetryCount
    (fun a => (.error (toString a) : Except String Doc))
    (fun a => (.error (toString a) : Except String Doc)) (fun a => toString a)).2.1
    (by decide) (fun a _ _ => rfl)
  exact ⟨h.1, h.2.trans (by decide)⟩

/-!  ## Client readiness polling (VaultClient.waitForVault)

The client polls the gateway /health endpoint up to maxRetries times; after
the i-th failed probe (0-based) it sleeps
min(1000 * 1.5^i, 10000) milliseconds, then throws Unavailable once the
bound is exhausted.  Delays are rationals, matching the JS float values
exactly in the pre-cap range. -/

/-- The backoff delay after failed probe i: base 1000 ms multiplied by
1.5 per attempt, capped at 10000 ms. -/
def clientWaitDelay (i : Nat) : ℚ :=
  min (1000 * (3 / 2 : ℚ) ^ i) 10000

/-- Modelled from the spec: the doubling backoff the spec describes (base
delay doubled each attempt up to the 10 s ceiling), for comparison with the
implemented delay. -/
def specDoubledDelay (i : Nat) : ℚ :=
  min (1000 * (2 : ℚ) ^ i) 10000

/-- The client waitForVault loop: probe index and remaining probes; second
component lists the sleeps performed (one after every failed probe). -/
def clientWaitGo (healthOk : Nat → Bool) : Nat → Nat → Except String Unit × List ℚ
  | _, 0 => (.error "Vault service is not available after maximum retries", [])
  | i, n + 1 =>
      if healthOk i then (.ok (), [])
      else
        let r := clientWaitGo healthOk (i + 1) n
        (r.1, clientWaitDelay i :: r.2)

/-- VaultClient.waitForVault with its default bound of 30 probes. -/
def clientWaitRun (healthOk : Nat → Bool) (maxRetries : Nat := 30) :
    Except String Unit × List ℚ :=
  clientWaitGo healthOk 0 maxRetries

/-- C7 counterexample: the implemented backoff multiplies by 1.5, not 2 —
after the second probe the client waits 1500 ms where the claimed doubling
schedule waits 2000 ms. -/
theorem clientWaitDelay_not_doubling :
    clientWaitDelay 0 = 1000
    ∧ clientWaitDelay 1 = 1500
    ∧ specDoubledDelay 1 = 2000
    ∧ clientWaitDelay 1 ≠ specDoubledDelay 1
    ∧ (clientWaitRun (fun _ => false) 2).2 = [1000, 1500] := by
  refine ⟨?_, ?_, ?_, ?_, ?_⟩
  · unfold clientWaitDelay
    norm_num
  · unfold clientWaitDelay
    norm_num
  · unfold specDoubledDelay
    norm_num
  · unfold clientWaitDelay specDoubledDelay
    norm_num
  · show (clientWaitGo (fun _ => false) 0 2).2 = [1000, 1500]
    simp only [clientWaitGo, Bool.false_eq_true, if_false]
    unfold clientWaitDelay
    norm_num

theorem clientWaitGo_exhaust (healthOk : Nat → Bool) (i n : Nat)
    (hall : ∀ j, i ≤ j → j < i + n → healthOk j = false) :
    clientWaitGo healthOk i n
      = (.error "Vault service is not available after maximum retries",
         (List.range' i n).map clientWaitDelay) := by
  induction n generalizing i with
  | zero => rfl
  | succ n ih =>
      have hi : healthOk i = false := hall i (le_refl i) (by omega)
      simp only [clientWaitGo, hi, Bool.false_eq_true, if_false]
      rw [ih (i + 1) (fun j h1 h2 => hall j (by omega) (by omega))]
      rw [List.range'_succ i n 1]
      simp

/-- C7 amended: the client backoff starts at 1000 ms and is multiplied by
1.5 after each failed probe, capped at 10000 ms; when every probe up to the
bound fails, waitForVault throws the Unavailable error after sleeping
exactly that capped geometric schedule. -/
theorem clientWait_backoff_contract (m : Nat) (healthOk : Nat → Bool) :
    clientWaitDelay 0 = 1000
    ∧ (∀ i, clientWaitDelay (i + 1) = min ((3 / 2 : ℚ) * clientWaitDelay i) 10000)
    ∧ (∀ i, clientWaitDelay i ≤ 10000)
    ∧ ((∀ j, j < m → healthOk j = false) →
        clientWaitRun healthOk m
          = (.error "Vault service is not available after maximum retries",
             (List.range' 0 m).map clientWaitDelay)) := by
  refine ⟨by unfold clientWaitDelay; norm_num, ?_, ?_, ?_⟩
  · intro i
    unfold clientWaitDelay
    rcases le_or_lt (1000 * (3 / 2 : ℚ) ^ i) 10000 with h | h
    · rw [min_eq_left h]
      have : (1000 : ℚ) * (3 / 2) ^ (i + 1) = (3 / 2) * (1000 * (3 / 2) ^ i) := by
        ring
      rw [this]
    · rw [min_eq_right (le_of_lt h)]
      have h1 : (10000 : ℚ) ≤ 1000 * (3 / 2) ^ (i + 1) := by
        have hgrow : 1000 * (3 / 2 : ℚ) ^ i ≤ 1000 * (3 / 2) ^ (i + 1) := by
          have hp : (0 : ℚ) < (3 / 2) ^ i := by positivity
          have : (3 / 2 : ℚ) ^ i ≤ (3 / 2) ^ (i + 1) := by
            rw [pow_succ]
            nlinarith
          nlinarith
        linarith
      have h2 : (10000 : ℚ) ≤ (3 / 2) * 10000 := by norm_num
      rw [min_eq_right h1, min_eq_right h2]
  · intro i
    exact min_le_right _ _
  · intro hall
    exact clientWaitGo_exhaust healthOk 0 m (fun j _ h2 => hall j (by omega))

/-- With a two-probe bound and the gateway never healthy, the client sleeps
1000 ms then 1500 ms and fails with the Unavailable error. -/
theorem clientWait_backoff_contract_witness :
    clientWaitRun (fun _ => false) 2
      = (.error "Vault service is not available after maximum retries",
         [clientWaitDelay 0, clientWaitDelay 1]) := by
  have h := (clientWait_backoff_contract 2 (fun _ => false)).2.2.2 (fun j _ => rfl)
  rw [h]
  rfl

/-!  ## Database configuration (VaultManager.getDatabaseConfig,
VaultClient.getDatabaseUrl, getServiceDatabase)

getDatabaseConfig reads the database document and returns a config whose
getDatabaseUrl closure takes no parameter: it always builds the URL from
the captured document, using shared_database (default "transcendence") as
the database component.  The client nevertheless calls it with a
per-service database name, which JS silently ignores. -/

/-- The getDatabaseUrl closure of getDatabaseConfig, as invoked by the
client with an (ignored) database-name argument. -/
def getDatabaseUrl (dbSecrets : Doc) : String → String :=
  fun _ =>
    let database := jsOr (dbSecrets "shared_database") "transcendence"
    "mysql://" ++ jsUndef (dbSecrets "username") ++ ":" ++ jsUndef (dbSecrets "password")
      ++ "@" ++ jsUndef (dbSecrets "host") ++ ":" ++ jsUndef (dbSecrets "port")
      ++ "/" ++ database

/-- The per-service database name the client passes to the closure. -/
def getServiceDatabase (serviceName : String) : String :=
  if serviceName = "auth-service" then "auth_db"
  else if serviceName = "user-service" then "user_db"
  else if serviceName = "game-service" then "game_db"
  else "transcendence"

/-- C9: the database-URL computation ignores its argument — for every
requested name (including the per-service names auth_db, user_db, game_db)
the URL is built from the stored shared_database field, defaulting to
"transcendence", so every service receives the same shared-database URL. -/
theorem getDatabaseUrl_ignores_argument (dbSecrets : Doc) (d d' : String) :
    getDatabaseUrl dbSecrets d = getDatabaseUrl dbSecrets d'
    ∧ (∃ prefixPart, ∀ x, getDatabaseUrl dbSecrets x
        = prefixPart ++ "/" ++ jsOr (dbSecrets "shared_database") "transcendence")
    ∧ getServiceDatabase "auth-service" = "auth_db"
    ∧ getServiceDatabase "user-service" = "user_db"
    ∧ getServiceDatabase "game-service" = "game_db"
    ∧ ∀ sn, getDatabaseUrl dbSecrets (getServiceDatabase sn)
        = getDatabaseUrl dbSecrets "transcendence" := by
  refine ⟨rfl, ⟨"mysql://" ++ jsUndef (dbSecrets "username") ++ ":"
    ++ jsUndef (dbSecrets "password") ++ "@" ++ jsUndef (dbSecrets "host") ++ ":"
    ++ jsUndef (dbSecrets "port"), fun x => ?_⟩, rfl, rfl, rfl, fun sn => rfl⟩
  simp [getDatabaseUrl]

/-!  ## Secret masking (SecretManager.maskSecret)

JS strings are modelled as lists of characters: substring(0, v) is take v
and the asterisk repeat is List.replicate.  The guard treats the empty
string and any string of length at most visibleChars alike. -/

/-- SecretManager.maskSecret: keep at most visibleChars leading characters
and replace the rest by at most eight asterisks. -/
def maskSecret (secret : List Char) (visibleChars : Nat := 4) : List Char :=
  if secret = [] ∨ secret.length ≤ visibleChars then
    ['*', '*', '*']
  else
    let visible := secret.take visibleChars
    let masked := List.replicate (min (secret.length - visibleChars) 8) '*'
    visible ++ masked

/-- C10: masking a secret no longer than visibleChars (or empty) yields the
fixed "***"; otherwise the result is the first visibleChars characters
followed by min(length - visibleChars, 8) asterisks; the output never
exceeds visibleChars + 8 characters and everything beyond the first
visibleChars characters is an asterisk — no further input character is
revealed. -/
theorem maskSecret_spec (s : List Char) (v : Nat) :
    (s.length ≤ v → maskSecret s v = ['*', '*', '*'])
    ∧ (v < s.length → maskSecret s v
        = s.take v ++ List.replicate (min (s.length - v) 8) '*')
    ∧ (maskSecret s v).length ≤ v + 8
    ∧ (maskSecret s v).drop v = List.replicate ((maskSecret s v).length - v) '*' := by
  by_cases h : s = [] ∨ s.length ≤ v
  · have hmask : maskSecret s v = ['*', '*', '*'] := by
      unfold maskSecret
      rw [if_pos h]
    refine ⟨fun _ => hmask, fun hlt => ?_, ?_, ?_⟩
    · rcases h with h | h
      · subst h; simp at hlt
      · omega
    · rw [hmask]; simp
    · rw [hmask]
      have : (['*', '*', '*'] : List Char).drop v
          = List.replicate ((['*', '*', '*'] : List Char).length - v) '*' := by
        match v with
        | 0 => rfl
        | 1 => rfl
        | 2 => rfl
        | n + 3 => simp
      exact this
  · push_neg at h
    obtain ⟨hne, hlen⟩ := h
    have hlt : v < s.length := by omega
    have hmask : maskSecret s v = s.take v ++ List.replicate (min (s.length - v) 8) '*' := by
      unfold maskSecret
      rw [if_neg (by push_neg; exact ⟨hne, by omega⟩)]
    have htake : (s.take v).length = v := by
      rw [List.length_take]
      omega
    refine ⟨fun hle => by omega, fun _ => hmask, ?_, ?_⟩
    · rw [hmask]
      simp only [List.length_append, List.length_replicate, htake]
      omega
    · rw [hmask]
      have hdrop := List.drop_left (s.take v) (List.replicate (min (s.length - v) 8) '*')
      rw [htake] at hdrop
      rw [hdrop]
      simp only [List.length_append, List.length_replicate, htake]
      congr 1
      omega

/-- Masking "supersecret" with four visible characters shows exactly "supe"
and seven asterisks; a two-character secret masks to "***". -/
theorem maskSecret_spec_witness :
    maskSecret ['s', 'u', 'p', 'e', 'r', 's', 'e', 'c', 'r', 'e', 't'] 4
      = ['s', 'u', 'p', 'e', '*', '*', '*', '*', '*', '*', '*']
    ∧ maskSecret ['o', 'k'] 4 = ['*', '*', '*'] := by
  constructor
  · exact ((maskSecret_spec ['s', 'u', 'p', 'e', 'r', 's', 'e', 'c', 'r', 'e', 't'] 4).2.1
      (by decide)).trans (by decide)
  · exact (maskSecret_spec ['o', 'k'] 4).1 (by decide)
